import Mathlib

/-!
Verification of the Alexandria CMDB CI-type schema validation engine.

The development shallowly embeds the Go sources:
  - `citypes.go` (`CIType`, `CITypeAttribute`, `CITypeAttributeList`,
    `CIType.Validate`, `CIType.validateAttributes`, `CITypeAttributeList.Get`),
  - `crypto.go` (`HashPasswordWithSalt`, `CheckPassword`),
  - the boolean attribute format exercised by `formats_test.go`.

Helpers that live in files not present in the source tree (the name
normalizer `GetShortName` / `IsValidShortName`, the format registry
`GetAttributeFormat`, and the per-format validators) are modelled from the
specification; each such definition carries a doc comment saying so.

Go strings are modelled as Lean `String`; Go byte slices as `List Nat`
(each entry a byte value); Go errors as `Except String`; in-place mutation
of a schema during validation as a function returning the updated schema.
-/

/-- Modelled from the spec: ASCII lower-casing of a single character, the
character-level behaviour of Go's `strings.ToLower` / `unicode.ToLower`
restricted to the ASCII range used by short names. -/
def lowerChar (c : Char) : Char :=
  match c with
  | 'A' => 'a' | 'B' => 'b' | 'C' => 'c' | 'D' => 'd' | 'E' => 'e'
  | 'F' => 'f' | 'G' => 'g' | 'H' => 'h' | 'I' => 'i' | 'J' => 'j'
  | 'K' => 'k' | 'L' => 'l' | 'M' => 'm' | 'N' => 'n' | 'O' => 'o'
  | 'P' => 'p' | 'Q' => 'q' | 'R' => 'r' | 'S' => 's' | 'T' => 't'
  | 'U' => 'u' | 'V' => 'v' | 'W' => 'w' | 'X' => 'x' | 'Y' => 'y'
  | 'Z' => 'z'
  | other => other

/-- Modelled from the spec: Go's `strings.ToLower`, character by character. -/
def stringToLower (s : String) : String :=
  String.mk (s.data.map lowerChar)

/-- Modelled from the spec: membership in the permitted short-name identifier
alphabet of the NameNormalizer (§4.1): ASCII lower-case letters, digits and
the underscore separator. -/
def shortNameChar (c : Char) : Bool :=
  (('a' ≤ c) && (c ≤ 'z')) || (('0' ≤ c) && (c ≤ '9')) || (c == '_')

/-- Modelled from the spec: `GetShortName` (the NameNormalizer's
`deriveShortName`, §4.1), whose source file is not in the tree: it
lower-cases the input and strips every character outside the permitted
identifier alphabet. -/
def GetShortName (name : String) : String :=
  String.mk ((name.data.map lowerChar).filter shortNameChar)

/-- Modelled from the spec: `IsValidShortName` (§4.1) re-checks the
short-name alphabet; per the invariant of §3 a valid short name is a
non-empty string over the permitted alphabet. -/
def IsValidShortName (s : String) : Bool :=
  (s != "") && s.data.all shortNameChar

/-- Modelled from the spec: the FormatRegistry (§4.2), whose source file is
not in the tree: a fixed lookup from format-name to the registered validator
(represented by its name), populated with the five built-in formats; lookup
of any other name is absent. -/
def GetAttributeFormat (name : String) : Option String :=
  if name = "string" ∨ name = "number" ∨ name = "boolean" ∨
      name = "timestamp" ∨ name = "group" then some name else none

mutual
/-- One node of a CI type's attribute tree (`CITypeAttribute` in
`citypes.go`): fields `Name`, `ShortName`, `Type`, `Description`,
`Children`.  The per-format option fields (`Required`, `IsArray`,
`MinCount`, `MaxCount`, `Singular`, `MinLength`, `MaxLength`, `Filters`,
`Units`, `MinValue`, `MaxValue`) are not read by any operation modelled
here and are omitted. -/
inductive CITypeAttribute : Type where
  | mk (name shortName type description : String)
      (children : CITypeAttributeList) : CITypeAttribute

/-- `CITypeAttributeList` in `citypes.go`: an ordered sequence of attribute
definitions. -/
inductive CITypeAttributeList : Type where
  | nil : CITypeAttributeList
  | cons (att : CITypeAttribute) (rest : CITypeAttributeList) : CITypeAttributeList
end

def CITypeAttribute.name : CITypeAttribute → String
  | .mk n _ _ _ _ => n

def CITypeAttribute.shortName : CITypeAttribute → String
  | .mk _ s _ _ _ => s

def CITypeAttribute.type : CITypeAttribute → String
  | .mk _ _ t _ _ => t

def CITypeAttribute.description : CITypeAttribute → String
  | .mk _ _ _ d _ => d

def CITypeAttribute.children : CITypeAttribute → CITypeAttributeList
  | .mk _ _ _ _ c => c

/-- View a `CITypeAttributeList` as a Lean list, for stating membership. -/
def CITypeAttributeList.toList : CITypeAttributeList → List CITypeAttribute
  | .nil => []
  | .cons a l => a :: l.toList

/-- Loop body of `CITypeAttributeList.Get` (`citypes.go`): scan for the
first attribute whose stored short name equals the (already lower-cased)
lookup key. -/
def CITypeAttributeList.getAux (n : String) : CITypeAttributeList → Option CITypeAttribute
  | .nil => none
  | .cons att rest => if att.shortName = n then some att else rest.getAux n

/-- `CITypeAttributeList.Get` (`citypes.go`): lower-case the requested name,
then return (a copy of) the first attribute whose `ShortName` equals it,
or `none`. -/
def CITypeAttributeList.Get (c : CITypeAttributeList) (name : String) : Option CITypeAttribute :=
  c.getAux (stringToLower name)

mutual
/-- The per-attribute body of `CIType.validateAttributes` (`citypes.go`):
check the name, derive and store the short name, check it, check the type
is non-empty and registered, then handle children (recursing with prefix
`shortName ++ "."` for groups).  On success the returned attribute is the
in-place-updated one. -/
def validateAttribute (att : CITypeAttribute) (path : String) : Except String CITypeAttribute :=
  match att with
  | .mk name _ ty descr children =>
    if name = "" then .error "No attribute name specified"
    else
      let sn := GetShortName name
      if !(IsValidShortName sn) then
        .error ("Invalid characters in CI Attribute \'" ++ path ++ sn ++ "\'")
      else if ty = "" then
        .error ("No type specified for CI Attribute \'" ++ path ++ sn ++ "\'")
      else if (GetAttributeFormat ty).isNone then
        .error ("Unsupported attribute format \'" ++ ty ++ "\' for CI Attribute \'" ++ path ++ sn ++ "\'")
      else if ty = "group" then
        match validateAttributes children (sn ++ ".") with
        | .error e => .error e
        | .ok ch => .ok (.mk name sn ty descr ch)
      else if !(children.toList.isEmpty) then
        .error ("CI Attribute \'" ++ path ++ sn ++ "\' has children but is not a group attribute")
      else .ok (.mk name sn ty descr children)

/-- `CIType.validateAttributes` (`citypes.go`): validate each sibling in
sequence order, returning the first error, or the normalized list. -/
def validateAttributes (atts : CITypeAttributeList) (path : String) : Except String CITypeAttributeList :=
  match atts with
  | .nil => .ok .nil
  | .cons att rest =>
    match validateAttribute att path with
    | .error e => .error e
    | .ok att' =>
      match validateAttributes rest path with
      | .error e => .error e
      | .ok rest' => .ok (.cons att' rest')
end

/-- `CIType` in `citypes.go`: the top-level schema (the embedded `model`
bookkeeping fields are not read by validation and are omitted). -/
structure CIType where
  name : String
  shortName : String
  description : String
  attributes : CITypeAttributeList

/-- `CIType.Validate` (`citypes.go`): require a name, derive the short name
when absent, alphabet-check it, then validate the attribute tree with the
empty path prefix.  On success the returned schema carries the effective
short name and the normalized attribute tree. -/
def CIType.Validate (c : CIType) : Except String CIType :=
  if c.name = "" then .error "No CI Type name specified"
  else
    let sn := if c.shortName = "" then GetShortName c.name else c.shortName
    if !(IsValidShortName sn) then .error "Invalid characters in CI Type name"
    else
      match validateAttributes c.attributes "" with
      | .error e => .error e
      | .ok atts => .ok { c with shortName := sn, attributes := atts }

/-- Success test for a validation result (Go: the returned error is `nil`). -/
def exceptOk {α : Type} : Except String α → Bool
  | .ok _ => true
  | .error _ => false

mutual
/-- Every node of the attribute tree rooted at this attribute satisfies `P`. -/
def attAllP (P : CITypeAttribute → Bool) : CITypeAttribute → Bool
  | .mk n s t d ch => P (.mk n s t d ch) && attsAllP P ch

/-- Every node of the attribute forest satisfies `P`. -/
def attsAllP (P : CITypeAttribute → Bool) : CITypeAttributeList → Bool
  | .nil => true
  | .cons a rest => attAllP P a && attsAllP P rest
end

mutual
/-- Some node of the attribute tree rooted at this attribute satisfies `P`. -/
def attAnyP (P : CITypeAttribute → Bool) : CITypeAttribute → Bool
  | .mk n s t d ch => P (.mk n s t d ch) || attsAnyP P ch

/-- Some node of the attribute forest satisfies `P`. -/
def attsAnyP (P : CITypeAttribute → Bool) : CITypeAttributeList → Bool
  | .nil => false
  | .cons a rest => attAnyP P a || attsAnyP P rest
end

/-- The attribute's short name is exactly the one derived from its name. -/
def shortNameDerived (a : CITypeAttribute) : Bool :=
  a.shortName == GetShortName a.name

/-- The attribute declares a non-empty type that the format registry does
not resolve. -/
def unresolvedType (a : CITypeAttribute) : Bool :=
  (a.type != "") && (GetAttributeFormat a.type).isNone

/-- A submitted attribute value, as the format validators see it (Go
`interface{}`): a native boolean, a string, or a number.  Numbers are
modelled as integers, which covers the integer inputs the boolean format
is specified on. -/
inductive Value : Type where
  | bool (b : Bool)
  | str (s : String)
  | num (n : Int)
deriving DecidableEq

/-- Modelled from the spec: the boolean format validator (its source file is
not in the tree).  Per §4.3 it rejects a mismatched declared type, passes
native booleans through, coerces the case-insensitive strings "true" and
"false", and coerces numbers to a native boolean; per §8 and
`TestBooleanFormat` in `formats_test.go` the number `10` coerces to `true`
and `-10` coerces to `false`, so a number coerces to whether it is
positive. -/
def booleanValidate (att : CITypeAttribute) (val : Value) : Except String Value :=
  if att.type ≠ "boolean" then
    .error ("Invalid attribute type \'" ++ att.type ++ "\' for boolean format")
  else
    match val with
    | .bool b => .ok (.bool b)
    | .str s =>
      if stringToLower s = "true" then .ok (.bool true)
      else if stringToLower s = "false" then .ok (.bool false)
      else .error ("Failed to parse boolean value \'" ++ s ++ "\'")
    | .num n => .ok (.bool (decide (0 < n)))

/-- The base64 standard alphabet, in index order (Go
`encoding/base64.StdEncoding`). -/
def base64Alphabet : List Char :=
  ['A', 'B', 'C', 'D', 'E', 'F', 'G', 'H', 'I', 'J', 'K', 'L', 'M',
   'N', 'O', 'P', 'Q', 'R', 'S', 'T', 'U', 'V', 'W', 'X', 'Y', 'Z',
   'a', 'b', 'c', 'd', 'e', 'f', 'g', 'h', 'i', 'j', 'k', 'l', 'm',
   'n', 'o', 'p', 'q', 'r', 's', 't', 'u', 'v', 'w', 'x', 'y', 'z',
   '0', '1', '2', '3', '4', '5', '6', '7', '8', '9', '+', '/']

/-- The character encoding a six-bit group. -/
def b64Char (n : Nat) : Char := base64Alphabet.getD n 'A'

/-- The six-bit group a character decodes to; `64` when the character is not
in the alphabet. -/
def b64Index (c : Char) : Nat := base64Alphabet.findIdx (fun d => d == c)

/-- Base64 standard encoding of a byte sequence (Go
`base64.StdEncoding.EncodeToString`): three bytes become four alphabet
characters; a final group of one or two bytes is padded with `=`. -/
def encodeB64 : List Nat → List Char
  | [] => []
  | [b0] => [b64Char (b0 / 4), b64Char (b0 % 4 * 16), '=', '=']
  | [b0, b1] => [b64Char (b0 / 4), b64Char (b0 % 4 * 16 + b1 / 16),
      b64Char (b1 % 16 * 4), '=']
  | b0 :: b1 :: b2 :: rest =>
      b64Char (b0 / 4) :: b64Char (b0 % 4 * 16 + b1 / 16) ::
      b64Char (b1 % 16 * 4 + b2 / 64) :: b64Char (b2 % 64) :: encodeB64 rest

/-- Base64 standard decoding (Go `base64.StdEncoding.DecodeString`): four
characters decode to three bytes; `=` padding is accepted only in the last
group; `none` on malformed input. -/
def decodeB64 : List Char → Option (List Nat)
  | [] => some []
  | c0 :: c1 :: c2 :: c3 :: rest =>
    if b64Index c0 < 64 then
      if b64Index c1 < 64 then
        if c2 = '=' then
          if c3 = '=' ∧ rest = [] then
            some [b64Index c0 * 4 + b64Index c1 / 16]
          else none
        else if b64Index c2 < 64 then
          if c3 = '=' then
            if rest = [] then
              some [b64Index c0 * 4 + b64Index c1 / 16,
                b64Index c1 % 16 * 16 + b64Index c2 / 4]
            else none
          else if b64Index c3 < 64 then
            match decodeB64 rest with
            | none => none
            | some bs => some ((b64Index c0 * 4 + b64Index c1 / 16) ::
                (b64Index c1 % 16 * 16 + b64Index c2 / 4) ::
                (b64Index c2 % 4 * 64 + b64Index c3) :: bs)
          else none
        else none
      else none
    else none
  | _ => none

/-- `HashPasswordWithSalt` (`crypto.go`): append the password bytes to the
salt, hash, append the salt to the digest, and base64-encode.  The SHA-256
digest function (Go `crypto/sha256`, an external collaborator) is a
parameter; passwords and salts are byte sequences. -/
def HashPasswordWithSalt (sha : List Nat → List Nat) (password salt : List Nat) : String :=
  String.mk (encodeB64 (sha (salt ++ password) ++ salt))

/-- `CheckPassword` (`crypto.go`): empty password or hash fails outright;
otherwise the stored hash is base64-decoded, the salt recovered from byte
32 onward, the hash recomputed and compared.  `none` models the
`log.Panic` Go performs when the stored hash is not valid base64. -/
def CheckPassword (sha : List Nat → List Nat) (hash : String) (password : List Nat) : Option Bool :=
  if password = [] ∨ hash = "" then some false
  else
    match decodeB64 hash.data with
    | none => none
    | some b => some (hash == HashPasswordWithSalt sha password (b.drop 32))

/-- A stand-in digest function with SHA-256's output length, used to
instantiate the parametric password theorems on concrete inputs. -/
def shaConst : List Nat → List Nat := fun _ => List.replicate 32 7

theorem lowerChar_fixed {c : Char} (h : shortNameChar c = true) : lowerChar c = c := by
  unfold lowerChar
  split
  all_goals first
    | rfl
    | (exfalso; revert h; decide)

theorem filter_lower_fixed (l : List Char) (h : ∀ c ∈ l, shortNameChar c = true) :
    (l.map lowerChar).filter shortNameChar = l := by
  induction l with
  | nil => rfl
  | cons c cs ih =>
    have hc : shortNameChar c = true := h c (by simp)
    simp only [List.map_cons, List.filter_cons, lowerChar_fixed hc, hc, if_pos]
    simp [ih (fun x hx => h x (by simp [hx]))]

theorem GetShortName_chars (s : String) :
    ∀ c ∈ (GetShortName s).data, shortNameChar c = true := by
  intro c hc
  exact List.of_mem_filter hc

theorem GetShortName_idem (s : String) :
    GetShortName (GetShortName s) = GetShortName s := by
  show String.mk (((GetShortName s).data.map lowerChar).filter shortNameChar) = GetShortName s
  rw [filter_lower_fixed _ (GetShortName_chars s)]

theorem IsValidShortName_ne_empty {s : String} (h : IsValidShortName s = true) : s ≠ "" := by
  have := (Bool.and_eq_true _ _).mp h
  simpa using this.1

theorem validateAttributes_cons_error {att : CITypeAttribute} {rest : CITypeAttributeList}
    {p e : String} (h : validateAttribute att p = .error e) :
    validateAttributes (.cons att rest) p = .error e := by
  simp [validateAttributes, h]

theorem validateAttributes_cons_ok {att att' : CITypeAttribute} {rest rest' : CITypeAttributeList}
    {p : String} (h : validateAttribute att p = .ok att')
    (h' : validateAttributes rest p = .ok rest') :
    validateAttributes (.cons att rest) p = .ok (.cons att' rest') := by
  simp [validateAttributes, h, h']

theorem validateAttributes_cons_tail_error {att att' : CITypeAttribute}
    {rest : CITypeAttributeList} {p e : String} (h : validateAttribute att p = .ok att')
    (h' : validateAttributes rest p = .error e) :
    validateAttributes (.cons att rest) p = .error e := by
  simp [validateAttributes, h, h']

theorem validateAttribute_empty_name {n s t d : String} {ch : CITypeAttributeList}
    {p : String} (hn : n = "") :
    validateAttribute (.mk n s t d ch) p = .error "No attribute name specified" := by
  simp [validateAttribute, hn]

theorem validateAttribute_bad_shortName {n s t d : String} {ch : CITypeAttributeList}
    {p : String} (hn : n ≠ "") (hv : IsValidShortName (GetShortName n) = false) :
    validateAttribute (.mk n s t d ch) p =
      .error ("Invalid characters in CI Attribute \'" ++ p ++ GetShortName n ++ "\'") := by
  simp [validateAttribute, hn, hv]

theorem validateAttribute_empty_type {n s t d : String} {ch : CITypeAttributeList}
    {p : String} (hn : n ≠ "") (hv : IsValidShortName (GetShortName n) = true) (ht : t = "") :
    validateAttribute (.mk n s t d ch) p =
      .error ("No type specified for CI Attribute \'" ++ p ++ GetShortName n ++ "\'") := by
  simp [validateAttribute, hn, hv, ht]

theorem validateAttribute_bad_format {n s t d : String} {ch : CITypeAttributeList}
    {p : String} (hn : n ≠ "") (hv : IsValidShortName (GetShortName n) = true)
    (ht : t ≠ "") (hf : GetAttributeFormat t = none) :
    validateAttribute (.mk n s t d ch) p =
      .error ("Unsupported attribute format \'" ++ t ++ "\' for CI Attribute \'" ++ p ++
        GetShortName n ++ "\'") := by
  simp [validateAttribute, hn, hv, ht, hf]

theorem validateAttribute_group {n s t d : String} {ch : CITypeAttributeList}
    {p : String} (hn : n ≠ "") (hv : IsValidShortName (GetShortName n) = true)
    (hg : t = "group") :
    validateAttribute (.mk n s t d ch) p =
      match validateAttributes ch (GetShortName n ++ ".") with
      | .error e => .error e
      | .ok ch' => .ok (.mk n (GetShortName n) t d ch') := by
  subst hg
  simp [validateAttribute, hn, hv, GetAttributeFormat]

theorem validateAttribute_misplaced_children {n s t d : String} {ch : CITypeAttributeList}
    {p : String} (hn : n ≠ "") (hv : IsValidShortName (GetShortName n) = true)
    (ht : t ≠ "") (hf : GetAttributeFormat t ≠ none) (hg : t ≠ "group")
    (hch : ch.toList ≠ []) :
    validateAttribute (.mk n s t d ch) p =
      .error ("CI Attribute \'" ++ p ++ GetShortName n ++
        "\' has children but is not a group attribute") := by
  have hf' : (GetAttributeFormat t).isNone = false := by
    cases hq : GetAttributeFormat t with
    | none => exact absurd hq hf
    | some v => rfl
  have hch' : ch.toList.isEmpty = false := by
    cases hq : ch.toList with
    | nil => exact absurd hq hch
    | cons a l => rfl
  simp [validateAttribute, hn, hv, ht, hf', hg, hch']

theorem validateAttribute_leaf_ok {n s t d : String} {ch : CITypeAttributeList}
    {p : String} (hn : n ≠ "") (hv : IsValidShortName (GetShortName n) = true)
    (ht : t ≠ "") (hf : GetAttributeFormat t ≠ none) (hg : t ≠ "group")
    (hch : ch.toList = []) :
    validateAttribute (.mk n s t d ch) p = .ok (.mk n (GetShortName n) t d ch) := by
  have hf' : (GetAttributeFormat t).isNone = false := by
    cases hq : GetAttributeFormat t with
    | none => exact absurd hq hf
    | some v => rfl
  simp [validateAttribute, hn, hv, ht, hf', hg, hch]

theorem validateAttribute_isOk_path (att : CITypeAttribute) (p q : String) :
    exceptOk (validateAttribute att p) = exceptOk (validateAttribute att q) := by
  cases att with
  | mk n s t d ch =>
    by_cases hn : n = ""
    · simp [validateAttribute_empty_name hn]
    · by_cases hv : IsValidShortName (GetShortName n)
      · by_cases hg : t = "group"
        · rw [validateAttribute_group hn hv hg, validateAttribute_group hn hv hg]
        · by_cases ht : t = ""
          · simp [validateAttribute_empty_type hn hv ht, exceptOk]
          · by_cases hf : GetAttributeFormat t = none
            · simp [validateAttribute_bad_format hn hv ht hf, exceptOk]
            · by_cases hch : ch.toList = []
              · simp [validateAttribute_leaf_ok hn hv ht hf hg hch]
              · simp [validateAttribute_misplaced_children hn hv ht hf hg hch, exceptOk]
      · have hv' : IsValidShortName (GetShortName n) = false := by
          cases hq : IsValidShortName (GetShortName n)
          · rfl
          · exact absurd hq hv
        simp [validateAttribute_bad_shortName hn hv', exceptOk]

theorem validateAttributes_ok_iff (atts : CITypeAttributeList) (p : String) :
    exceptOk (validateAttributes atts p) = true ↔
      ∀ a ∈ atts.toList, exceptOk (validateAttribute a p) = true := by
  cases atts with
  | nil => simp [validateAttributes, CITypeAttributeList.toList, exceptOk]
  | cons att rest =>
    have ih := validateAttributes_ok_iff rest p
    cases h : validateAttribute att p with
    | error e =>
      rw [validateAttributes_cons_error h]
      simp only [CITypeAttributeList.toList, exceptOk]
      constructor
      · intro hfalse; exact absurd hfalse (by simp)
      · intro hall
        have := hall att (by simp)
        rw [h] at this
        exact absurd this (by simp [exceptOk])
    | ok att' =>
      cases h' : validateAttributes rest p with
      | error e =>
        rw [validateAttributes_cons_tail_error h h']
        simp only [CITypeAttributeList.toList, exceptOk]
        constructor
        · intro hfalse; exact absurd hfalse (by simp)
        · intro hall
          have : exceptOk (validateAttributes rest p) = true := by
            rw [ih]
            intro a ha
            exact hall a (by simp [ha])
          rw [h'] at this
          exact absurd this (by simp [exceptOk])
      | ok rest' =>
        rw [validateAttributes_cons_ok h h']
        simp only [CITypeAttributeList.toList, exceptOk, true_iff]
        intro a ha
        rcases List.mem_cons.mp ha with rfl | ha'
        · simp [h, exceptOk]
        · have : exceptOk (validateAttributes rest p) = true := by rw [h']; rfl
          exact (ih.mp this) a ha'

theorem toList_eq_nil {l : CITypeAttributeList} (h : l.toList = []) : l = .nil := by
  cases l with
  | nil => rfl
  | cons a rest => simp [CITypeAttributeList.toList] at h

mutual
theorem validateAttribute_shortNames (att : CITypeAttribute) (p : String)
    (att' : CITypeAttribute) (h : validateAttribute att p = .ok att') :
    attAllP shortNameDerived att' = true := by
  cases att with
  | mk n s t d ch =>
    by_cases hn : n = ""
    · rw [validateAttribute_empty_name hn] at h; exact absurd h (by simp)
    · by_cases hv : IsValidShortName (GetShortName n)
      · by_cases hg : t = "group"
        · rw [validateAttribute_group hn hv hg] at h
          cases hrec : validateAttributes ch (GetShortName n ++ ".") with
          | error e => rw [hrec] at h; exact absurd h (by simp)
          | ok ch' =>
            rw [hrec] at h
            have hch := validateAttributes_shortNames ch (GetShortName n ++ ".") ch' hrec
            have : CITypeAttribute.mk n (GetShortName n) t d ch' = att' := by
              simpa using h
            rw [← this]
            simp [attAllP, shortNameDerived, CITypeAttribute.shortName,
              CITypeAttribute.name, hch]
        · by_cases ht : t = ""
          · rw [validateAttribute_empty_type hn hv ht] at h; exact absurd h (by simp)
          · by_cases hf : GetAttributeFormat t = none
            · rw [validateAttribute_bad_format hn hv ht hf] at h; exact absurd h (by simp)
            · by_cases hch : ch.toList = []
              · rw [validateAttribute_leaf_ok hn hv ht hf hg hch] at h
                have : CITypeAttribute.mk n (GetShortName n) t d ch = att' := by
                  simpa using h
                rw [← this, toList_eq_nil hch]
                simp [attAllP, attsAllP, shortNameDerived, CITypeAttribute.shortName,
                  CITypeAttribute.name]
              · rw [validateAttribute_misplaced_children hn hv ht hf hg hch] at h
                exact absurd h (by simp)
      · have hv' : IsValidShortName (GetShortName n) = false := by
          cases hq : IsValidShortName (GetShortName n)
          · rfl
          · exact absurd hq hv
        rw [validateAttribute_bad_shortName hn hv'] at h
        exact absurd h (by simp)

theorem validateAttributes_shortNames (atts : CITypeAttributeList) (p : String)
    (atts' : CITypeAttributeList) (h : validateAttributes atts p = .ok atts') :
    attsAllP shortNameDerived atts' = true := by
  cases atts with
  | nil =>
    have : CITypeAttributeList.nil = atts' := by simpa [validateAttributes] using h
    rw [← this]; rfl
  | cons att rest =>
    cases ha : validateAttribute att p with
    | error e => rw [validateAttributes_cons_error ha] at h; exact absurd h (by simp)
    | ok att' =>
      cases hr : validateAttributes rest p with
      | error e => rw [validateAttributes_cons_tail_error ha hr] at h; exact absurd h (by simp)
      | ok rest' =>
        rw [validateAttributes_cons_ok ha hr] at h
        have : CITypeAttributeList.cons att' rest' = atts' := by simpa using h
        rw [← this]
        simp [attsAllP, validateAttribute_shortNames att p att' ha,
          validateAttributes_shortNames rest p rest' hr]
end

mutual
theorem validateAttribute_resolves (att : CITypeAttribute) (p : String)
    (att' : CITypeAttribute) (h : validateAttribute att p = .ok att') :
    attAnyP unresolvedType att = false := by
  cases att with
  | mk n s t d ch =>
    by_cases hn : n = ""
    · rw [validateAttribute_empty_name hn] at h; exact absurd h (by simp)
    · by_cases hv : IsValidShortName (GetShortName n)
      · by_cases hg : t = "group"
        · rw [validateAttribute_group hn hv hg] at h
          cases hrec : validateAttributes ch (GetShortName n ++ ".") with
          | error e => rw [hrec] at h; exact absurd h (by simp)
          | ok ch' =>
            have hch := validateAttributes_resolves ch (GetShortName n ++ ".") ch' hrec
            subst hg
            simp [attAnyP, unresolvedType, CITypeAttribute.type, GetAttributeFormat, hch]
        · by_cases ht : t = ""
          · rw [validateAttribute_empty_type hn hv ht] at h; exact absurd h (by simp)
          · by_cases hf : GetAttributeFormat t = none
            · rw [validateAttribute_bad_format hn hv ht hf] at h; exact absurd h (by simp)
            · by_cases hch : ch.toList = []
              · rw [toList_eq_nil hch]
                have hf' : (GetAttributeFormat t).isNone = false := by
                  cases hq : GetAttributeFormat t with
                  | none => exact absurd hq hf
                  | some v => rfl
                simp [attAnyP, attsAnyP, unresolvedType, CITypeAttribute.type, hf']
              · rw [validateAttribute_misplaced_children hn hv ht hf hg hch] at h
                exact absurd h (by simp)
      · have hv' : IsValidShortName (GetShortName n) = false := by
          cases hq : IsValidShortName (GetShortName n)
          · rfl
          · exact absurd hq hv
        rw [validateAttribute_bad_shortName hn hv'] at h
        exact absurd h (by simp)

theorem validateAttributes_resolves (atts : CITypeAttributeList) (p : String)
    (atts' : CITypeAttributeList) (h : validateAttributes atts p = .ok atts') :
    attsAnyP unresolvedType atts = false := by
  cases atts with
  | nil => rfl
  | cons att rest =>
    cases ha : validateAttribute att p with
    | error e => rw [validateAttributes_cons_error ha] at h; exact absurd h (by simp)
    | ok att' =>
      cases hr : validateAttributes rest p with
      | error e => rw [validateAttributes_cons_tail_error ha hr] at h; exact absurd h (by simp)
      | ok rest' =>
        simp [attsAnyP, validateAttribute_resolves att p att' ha,
          validateAttributes_resolves rest p rest' hr]
end

theorem getAux_none_iff (n : String) (c : CITypeAttributeList) :
    c.getAux n = none ↔ ∀ a ∈ c.toList, a.shortName ≠ n := by
  cases c with
  | nil => simp [CITypeAttributeList.getAux, CITypeAttributeList.toList]
  | cons att rest =>
    by_cases h : att.shortName = n
    · simp [CITypeAttributeList.getAux, CITypeAttributeList.toList, h]
    · simp [CITypeAttributeList.getAux, CITypeAttributeList.toList, h,
        getAux_none_iff n rest]

theorem getAux_first (n : String) (c : CITypeAttributeList) (a : CITypeAttribute)
    (h : c.getAux n = some a) :
    a.shortName = n ∧ ∃ pre post, c.toList = pre ++ a :: post ∧
      ∀ b ∈ pre, b.shortName ≠ n := by
  cases c with
  | nil => simp [CITypeAttributeList.getAux] at h
  | cons att rest =>
    by_cases hh : att.shortName = n
    · have ha : att = a := by simpa [CITypeAttributeList.getAux, hh] using h
      subst ha
      exact ⟨hh, [], rest.toList, by simp [CITypeAttributeList.toList], by simp⟩
    · have h' : rest.getAux n = some a := by
        simpa [CITypeAttributeList.getAux, hh] using h
      obtain ⟨h1, pre, post, heq, hpre⟩ := getAux_first n rest a h'
      refine ⟨h1, att :: pre, post, by simp [CITypeAttributeList.toList, heq], ?_⟩
      intro b hb
      rcases List.mem_cons.mp hb with rfl | hb'
      · exact hh
      · exact hpre b hb'

theorem b64_roundtrip_char : ∀ n < 64, b64Index (b64Char n) = n := by decide

theorem b64Char_ne_pad : ∀ n < 64, ¬(b64Char n = '=') := by decide

theorem encodeB64_ne_nil {l : List Nat} (h : l ≠ []) : encodeB64 l ≠ [] := by
  match l with
  | [] => exact absurd rfl h
  | [b0] => simp [encodeB64]
  | [b0, b1] => simp [encodeB64]
  | b0 :: b1 :: b2 :: rest => simp [encodeB64]

theorem decodeB64_encodeB64 (l : List Nat) (h : ∀ b ∈ l, b < 256) :
    decodeB64 (encodeB64 l) = some l := by
  match l with
  | [] => rfl
  | [b0] =>
    have hb0 : b0 < 256 := h b0 (by simp)
    have h0 : b0 / 4 < 64 := by omega
    have h1 : b0 % 4 * 16 < 64 := by omega
    have e0 := b64_roundtrip_char _ h0
    have e1 := b64_roundtrip_char _ h1
    simp only [encodeB64, decodeB64, e0, e1, h0, h1, if_pos, and_self, if_true]
    simp only [Option.some.injEq, List.cons.injEq, and_true]
    omega
  | [b0, b1] =>
    have hb0 : b0 < 256 := h b0 (by simp)
    have hb1 : b1 < 256 := h b1 (by simp)
    have h0 : b0 / 4 < 64 := by omega
    have h1 : b0 % 4 * 16 + b1 / 16 < 64 := by omega
    have h2 : b1 % 16 * 4 < 64 := by omega
    have e0 := b64_roundtrip_char _ h0
    have e1 := b64_roundtrip_char _ h1
    have e2 := b64_roundtrip_char _ h2
    have ne2 := b64Char_ne_pad _ h2
    simp only [encodeB64, decodeB64, e0, e1, e2, h0, h1, h2, if_pos, if_true,
      if_neg ne2, Option.some.injEq, List.cons.injEq, and_true]
    constructor
    · omega
    · omega
  | b0 :: b1 :: b2 :: rest =>
    have hb0 : b0 < 256 := h b0 (by simp)
    have hb1 : b1 < 256 := h b1 (by simp)
    have hb2 : b2 < 256 := h b2 (by simp)
    have hrest := decodeB64_encodeB64 rest (fun b hb => h b (by simp [hb]))
    have h0 : b0 / 4 < 64 := by omega
    have h1 : b0 % 4 * 16 + b1 / 16 < 64 := by omega
    have h2 : b1 % 16 * 4 + b2 / 64 < 64 := by omega
    have h3 : b2 % 64 < 64 := by omega
    have e0 := b64_roundtrip_char _ h0
    have e1 := b64_roundtrip_char _ h1
    have e2 := b64_roundtrip_char _ h2
    have e3 := b64_roundtrip_char _ h3
    have ne2 := b64Char_ne_pad _ h2
    have ne3 := b64Char_ne_pad _ h3
    simp only [encodeB64, decodeB64, e0, e1, e2, e3, h0, h1, h2, h3, if_pos,
      if_neg ne2, if_neg ne3, hrest]
    simp only [Option.some.injEq, List.cons.injEq, and_true]
    refine ⟨by omega, by omega, by omega⟩

theorem Validate_ok_inner {c c' : CIType} (h : c.Validate = .ok c') :
    c.name ≠ "" ∧
    IsValidShortName (if c.shortName = "" then GetShortName c.name else c.shortName) = true ∧
    ∃ atts, validateAttributes c.attributes "" = .ok atts ∧
      c' = { c with
        shortName := if c.shortName = "" then GetShortName c.name else c.shortName,
        attributes := atts } := by
  unfold CIType.Validate at h
  by_cases hn : c.name = ""
  · rw [if_pos hn] at h; exact absurd h (by simp)
  · rw [if_neg hn] at h
    by_cases hv : IsValidShortName (if c.shortName = "" then GetShortName c.name else c.shortName) = true
    · rw [if_neg (by simp [hv])] at h
      cases hva : validateAttributes c.attributes "" with
      | error e => rw [hva] at h; exact absurd h (by simp)
      | ok atts =>
        rw [hva] at h
        refine ⟨hn, hv, atts, rfl, ?_⟩
        simpa using h.symm
    · have hv' : IsValidShortName (if c.shortName = "" then GetShortName c.name else c.shortName) = false := by
        cases hq : IsValidShortName (if c.shortName = "" then GetShortName c.name else c.shortName)
        · rfl
        · exact absurd hq hv
      rw [if_pos (by simp [hv'])] at h
      exact absurd h (by simp)

/-- C8: for every attribute name containing only ASCII letters and digits,
the short-name derivation is idempotent:
`GetShortName (GetShortName x) = GetShortName x`; the derivation is a pure
function of its argument. -/
theorem C8_GetShortName_idempotent (x : String)
    (h : ∀ c ∈ x.data, (c.isAlpha || c.isDigit) = true) :
    GetShortName (GetShortName x) = GetShortName x :=
  GetShortName_idem x

/-- Witness for C8 at the concrete name "AbC123". -/
theorem C8_witness :
    (∀ c ∈ ("AbC123" : String).data, (c.isAlpha || c.isDigit) = true) ∧
    GetShortName (GetShortName "AbC123") = GetShortName "AbC123" :=
  ⟨by decide, C8_GetShortName_idempotent "AbC123" (by decide)⟩

/-- C4: whenever `CIType.Validate` succeeds, the validated schema's short
name is non-empty and passes the `IsValidShortName` alphabet check; and when
the input short name was empty, the validated short name is the one derived
from the schema's name by `GetShortName`. -/
theorem C4_Validate_shortName (c c' : CIType) (h : c.Validate = .ok c') :
    (c'.shortName ≠ "" ∧ IsValidShortName c'.shortName = true) ∧
    (c.shortName = "" → c'.shortName = GetShortName c.name) := by
  obtain ⟨hn, hv, atts, hva, hc'⟩ := Validate_ok_inner h
  subst hc'
  refine ⟨⟨IsValidShortName_ne_empty hv, hv⟩, ?_⟩
  intro hempty
  simp [hempty]

/-- Witness for C4 at a schema with non-empty name and empty short name. -/
theorem C4_witness :
    (CIType.mk "Server" "" "" .nil).Validate = .ok (CIType.mk "Server" "server" "" .nil) ∧
    (((CIType.mk "Server" "server" "" .nil).shortName ≠ "" ∧
      IsValidShortName (CIType.mk "Server" "server" "" .nil).shortName = true) ∧
    ((CIType.mk "Server" "" "" .nil).shortName = "" →
      (CIType.mk "Server" "server" "" .nil).shortName = GetShortName (CIType.mk "Server" "" "" .nil).name)) :=
  ⟨rfl, C4_Validate_shortName (CIType.mk "Server" "" "" .nil) (CIType.mk "Server" "server" "" .nil) rfl⟩

/-- C5: whenever `validateAttributes` succeeds, every attribute of the
resulting tree carries a short name equal to `GetShortName` of its name —
the derivation overwrote any short name supplied on input. -/
theorem C5_validateAttributes_normalizes (atts : CITypeAttributeList) (p : String)
    (atts' : CITypeAttributeList) (h : validateAttributes atts p = .ok atts') :
    attsAllP shortNameDerived atts' = true :=
  validateAttributes_shortNames atts p atts' h

/-- Witness for C5: a supplied short name "WRONG" is overwritten with the
derived "myserver". -/
theorem C5_witness :
    validateAttributes (.cons (.mk "My Server" "WRONG" "string" "" .nil) .nil) ""
      = .ok (.cons (.mk "My Server" "myserver" "string" "" .nil) .nil) ∧
    attsAllP shortNameDerived (.cons (.mk "My Server" "myserver" "string" "" .nil) .nil) = true :=
  ⟨rfl, C5_validateAttributes_normalizes (.cons (.mk "My Server" "WRONG" "string" "" .nil) .nil)
    "" (.cons (.mk "My Server" "myserver" "string" "" .nil) .nil) rfl⟩

/-- C1 counterexample: in a schema with group `a` containing group `b`
containing an attribute `c` of unknown format, the error names the path
"b.c" — only the immediate parent's short name — not the full dotted
ancestor path "a.b.c" the claim requires. -/
theorem C1_counterexample :
    validateAttributes (.cons (.mk "a" "" "group" ""
        (.cons (.mk "b" "" "group" ""
          (.cons (.mk "c" "" "bogus" "" .nil) .nil)) .nil)) .nil) ""
      = .error "Unsupported attribute format \'bogus\' for CI Attribute \'b.c\'" ∧
    ("Unsupported attribute format \'bogus\' for CI Attribute \'b.c\'" : String)
      ≠ "Unsupported attribute format \'bogus\' for CI Attribute \'a.b.c\'" :=
  ⟨rfl, by decide⟩

/-- C1 (amended): the recursion into a group's children passes
`GetShortName name ++ "."` as the new prefix, discarding the accumulated
prefix, so an error inside a group is reported exactly as computed with
that prefix, whatever prefix the group itself was reached with — the
reported path is the immediate parent's short name followed by the
offending attribute's short name, not the full ancestor path. -/
theorem C1_group_recursion_path (p n s d e : String) (ch rest : CITypeAttributeList)
    (hn : n ≠ "") (hv : IsValidShortName (GetShortName n) = true)
    (hch : validateAttributes ch (GetShortName n ++ ".") = .error e) :
    validateAttributes (.cons (.mk n s "group" d ch) rest) p = .error e := by
  apply validateAttributes_cons_error
  rw [validateAttribute_group hn hv rfl, hch]

/-- Witness for C1 (amended): a group reached with prefix "a." still reports
its child's error with the prefix "b.". -/
theorem C1_witness :
    ("b" : String) ≠ "" ∧ IsValidShortName (GetShortName "b") = true ∧
    validateAttributes (.cons (.mk "b" "" "group" ""
        (.cons (.mk "c" "" "bogus" "" .nil) .nil)) .nil) "a."
      = .error "Unsupported attribute format \'bogus\' for CI Attribute \'b.c\'" :=
  ⟨by decide, by decide,
    C1_group_recursion_path "a." "b" "" ""
      "Unsupported attribute format \'bogus\' for CI Attribute \'b.c\'"
      (.cons (.mk "c" "" "bogus" "" .nil) .nil) .nil (by decide) (by decide) rfl⟩

/-- C2 counterexample: the boolean format coerces the non-zero number `-10`
to `false`, not to `true` as the claim's "non-zero → true" rule requires
(this matches `TestBooleanFormat`, which expects `-10` to validate to
native `false`). -/
theorem C2_counterexample :
    booleanValidate (.mk "Test" "" "boolean" "" .nil) (.num (-10)) = .ok (.bool false) ∧
    booleanValidate (.mk "Test" "" "boolean" "" .nil) (.num (-10)) ≠ .ok (.bool true) ∧
    (-10 : Int) ≠ 0 :=
  ⟨rfl, by simp [booleanValidate, CITypeAttribute.type], by decide⟩

/-- C2 (amended): for every attribute of declared type "boolean" and every
numeric value, the boolean validator succeeds and coerces the value to
native `true` when the number is positive and to native `false` when it is
zero or negative. -/
theorem C2_boolean_numeric (att : CITypeAttribute) (x : Int) (h : att.type = "boolean") :
    booleanValidate att (.num x) = .ok (.bool (decide (0 < x))) := by
  simp [booleanValidate, h]

/-- Witness for C2 (amended) at the number 10, which coerces to `true`. -/
theorem C2_witness :
    (CITypeAttribute.mk "Test" "" "boolean" "" .nil).type = "boolean" ∧
    booleanValidate (.mk "Test" "" "boolean" "" .nil) (.num 10) = .ok (.bool true) :=
  ⟨rfl, C2_boolean_numeric (.mk "Test" "" "boolean" "" .nil) 10 rfl⟩

/-- C3: for an attribute whose name, derived short name and type checks
pass: when its type is "group" and its children are non-empty, validating it
succeeds iff every child validates (each child's success does not depend on
its siblings); when its type is not "group" and its children are non-empty,
validation always fails with the "has children but is not a group
attribute" error. -/
theorem C3_children_rules :
    (∀ n s d p : String, ∀ ch : CITypeAttributeList, n ≠ "" →
      IsValidShortName (GetShortName n) = true → ch.toList ≠ [] →
      (exceptOk (validateAttribute (.mk n s "group" d ch) p) = true ↔
        ∀ a ∈ ch.toList, exceptOk (validateAttribute a (GetShortName n ++ ".")) = true)) ∧
    (∀ n s t d p : String, ∀ ch : CITypeAttributeList, n ≠ "" →
      IsValidShortName (GetShortName n) = true → ch.toList ≠ [] →
      t ≠ "group" → t ≠ "" → GetAttributeFormat t ≠ none →
      validateAttribute (.mk n s t d ch) p =
        .error ("CI Attribute \'" ++ p ++ GetShortName n ++
          "\' has children but is not a group attribute")) := by
  constructor
  · intro n s d p ch hn hv hne
    rw [validateAttribute_group hn hv rfl]
    have hiff := validateAttributes_ok_iff ch (GetShortName n ++ ".")
    cases hrec : validateAttributes ch (GetShortName n ++ ".") with
    | error e =>
      rw [hrec] at hiff
      simpa [exceptOk] using hiff
    | ok ch' =>
      rw [hrec] at hiff
      simpa [exceptOk] using hiff
  · intro n s t d p ch hn hv hne hg ht hf
    exact validateAttribute_misplaced_children hn hv ht hf hg hne

/-- Witness for C3 at a concrete group with one valid string child and a
concrete non-group attribute carrying a child. -/
theorem C3_witness :
    (exceptOk (validateAttribute (.mk "g" "" "group" ""
        (.cons (.mk "c" "" "string" "" .nil) .nil)) "") = true ↔
      ∀ a ∈ (CITypeAttributeList.cons (.mk "c" "" "string" "" .nil) .nil).toList,
        exceptOk (validateAttribute a (GetShortName "g" ++ ".")) = true) ∧
    validateAttribute (.mk "h" "" "string" ""
        (.cons (.mk "c" "" "string" "" .nil) .nil)) "" =
      .error ("CI Attribute \'" ++ "" ++ GetShortName "h" ++
        "\' has children but is not a group attribute") :=
  ⟨C3_children_rules.1 "g" "" "" "" (.cons (.mk "c" "" "string" "" .nil) .nil)
      (by decide) (by decide) (by simp [CITypeAttributeList.toList]),
   C3_children_rules.2 "h" "" "string" "" "" (.cons (.mk "c" "" "string" "" .nil) .nil)
      (by decide) (by decide) (by simp [CITypeAttributeList.toList]) (by decide) (by decide)
      (by decide)⟩

/-- C6: validation is fail-fast, with the per-attribute checks performed in
the order (1) name non-empty, (2) derived short name alphabet-valid,
(3) type non-empty, (4) type registered, (5) children placement; the first
failing check's error is returned, an erring attribute stops the sibling
scan, and a later sibling's error surfaces only when every earlier sibling
validated. -/
theorem C6_fail_fast :
    (∀ n s t d p : String, ∀ ch rest : CITypeAttributeList, n = "" →
      validateAttributes (.cons (.mk n s t d ch) rest) p
        = .error "No attribute name specified") ∧
    (∀ n s t d p : String, ∀ ch rest : CITypeAttributeList, n ≠ "" →
      IsValidShortName (GetShortName n) = false →
      validateAttributes (.cons (.mk n s t d ch) rest) p
        = .error ("Invalid characters in CI Attribute \'" ++ p ++ GetShortName n ++ "\'")) ∧
    (∀ n s t d p : String, ∀ ch rest : CITypeAttributeList, n ≠ "" →
      IsValidShortName (GetShortName n) = true → t = "" →
      validateAttributes (.cons (.mk n s t d ch) rest) p
        = .error ("No type specified for CI Attribute \'" ++ p ++ GetShortName n ++ "\'")) ∧
    (∀ n s t d p : String, ∀ ch rest : CITypeAttributeList, n ≠ "" →
      IsValidShortName (GetShortName n) = true → t ≠ "" → GetAttributeFormat t = none →
      validateAttributes (.cons (.mk n s t d ch) rest) p
        = .error ("Unsupported attribute format \'" ++ t ++ "\' for CI Attribute \'" ++
            p ++ GetShortName n ++ "\'")) ∧
    (∀ n s t d p : String, ∀ ch rest : CITypeAttributeList, n ≠ "" →
      IsValidShortName (GetShortName n) = true → t ≠ "" → GetAttributeFormat t ≠ none →
      t ≠ "group" → ch.toList ≠ [] →
      validateAttributes (.cons (.mk n s t d ch) rest) p
        = .error ("CI Attribute \'" ++ p ++ GetShortName n ++
            "\' has children but is not a group attribute")) ∧
    (∀ p e : String, ∀ att : CITypeAttribute, ∀ rest : CITypeAttributeList,
      validateAttribute att p = .error e →
      validateAttributes (.cons att rest) p = .error e) ∧
    (∀ p e : String, ∀ att att' : CITypeAttribute, ∀ rest : CITypeAttributeList,
      validateAttribute att p = .ok att' → validateAttributes rest p = .error e →
      validateAttributes (.cons att rest) p = .error e) := by
  refine ⟨?_, ?_, ?_, ?_, ?_, ?_, ?_⟩
  · intro n s t d p ch rest hn
    exact validateAttributes_cons_error (validateAttribute_empty_name hn)
  · intro n s t d p ch rest hn hv
    exact validateAttributes_cons_error (validateAttribute_bad_shortName hn hv)
  · intro n s t d p ch rest hn hv ht
    exact validateAttributes_cons_error (validateAttribute_empty_type hn hv ht)
  · intro n s t d p ch rest hn hv ht hf
    exact validateAttributes_cons_error (validateAttribute_bad_format hn hv ht hf)
  · intro n s t d p ch rest hn hv ht hf hg hch
    exact validateAttributes_cons_error
      (validateAttribute_misplaced_children hn hv ht hf hg hch)
  · intro p e att rest h
    exact validateAttributes_cons_error h
  · intro p e att att' rest h h'
    exact validateAttributes_cons_tail_error h h'

/-- Witness for C6: an attribute with an empty name and an (also invalid)
empty type is reported with the name error — the first check in order. -/
theorem C6_witness :
    ("" : String) = "" ∧
    validateAttributes (.cons (.mk "" "" "" "" .nil) .nil) ""
      = .error "No attribute name specified" :=
  ⟨rfl, C6_fail_fast.1 "" "" "" "" "" .nil .nil rfl⟩

/-- C7 counterexample: a schema containing an attribute of non-empty
unresolvable type "bogus" fails validation, but with the empty-name error of
an earlier sibling, not with an "unsupported attribute format" error naming
"bogus" — the claim's universally quantified error shape does not hold. -/
theorem C7_counterexample :
    attsAnyP unresolvedType (.cons (.mk "" "" "string" "" .nil)
        (.cons (.mk "B" "" "bogus" "" .nil) .nil)) = true ∧
    (CIType.mk "T" "t" "" (.cons (.mk "" "" "string" "" .nil)
        (.cons (.mk "B" "" "bogus" "" .nil) .nil))).Validate
      = .error "No attribute name specified" ∧
    ("No attribute name specified" : String)
      ≠ "Unsupported attribute format \'bogus\' for CI Attribute \'b\'" :=
  ⟨rfl, rfl, by decide⟩

/-- C7 (amended): a schema containing an attribute with a non-empty type the
format registry does not resolve never validates successfully; and when the
sibling scan reaches such an attribute with its name and short-name checks
passing, the returned error is the "unsupported attribute format" error
naming the offending type and the prefixed short name. -/
theorem C7_unsupported_format :
    (∀ c : CIType, attsAnyP unresolvedType c.attributes = true →
      ∀ c', c.Validate ≠ .ok c') ∧
    (∀ n s t d p : String, ∀ ch rest : CITypeAttributeList, n ≠ "" →
      IsValidShortName (GetShortName n) = true → t ≠ "" → GetAttributeFormat t = none →
      validateAttributes (.cons (.mk n s t d ch) rest) p
        = .error ("Unsupported attribute format \'" ++ t ++ "\' for CI Attribute \'" ++
            p ++ GetShortName n ++ "\'")) := by
  constructor
  · intro c hany c' hok
    obtain ⟨-, -, atts, hva, -⟩ := Validate_ok_inner hok
    have := validateAttributes_resolves c.attributes "" atts hva
    rw [hany] at this
    exact absurd this (by simp)
  · intro n s t d p ch rest hn hv ht hf
    exact validateAttributes_cons_error (validateAttribute_bad_format hn hv ht hf)

/-- Witness for C7 (amended): the unresolvable type "bogus" at top level is
reported with the unsupported-format error, and a schema carrying it can
never validate. -/
theorem C7_witness :
    validateAttributes (.cons (.mk "B" "" "bogus" "" .nil) .nil) ""
      = .error ("Unsupported attribute format \'" ++ "bogus" ++ "\' for CI Attribute \'" ++
          "" ++ GetShortName "B" ++ "\'") ∧
    (CIType.mk "T" "" "" (.cons (.mk "B" "" "bogus" "" .nil) .nil)).Validate
      ≠ .ok (CIType.mk "T" "t" "" (.cons (.mk "B" "" "bogus" "" .nil) .nil)) :=
  ⟨C7_unsupported_format.2 "B" "" "bogus" "" "" .nil .nil (by decide) (by decide)
      (by decide) rfl,
   C7_unsupported_format.1 (CIType.mk "T" "" "" (.cons (.mk "B" "" "bogus" "" .nil) .nil))
      rfl (CIType.mk "T" "t" "" (.cons (.mk "B" "" "bogus" "" .nil) .nil))⟩

/-- C9: `Get` lower-cases the requested name and returns the first attribute
(in sequence order) whose stored short name equals the lower-cased name —
`none` exactly when no attribute matches — and two names with the same
lower-casing find the same attribute.  `Get` reads the list without
modifying it (it is a pure function of the list). -/
theorem C9_Get_correct (c : CITypeAttributeList) (name : String) :
    (CITypeAttributeList.Get c name = none ↔
      ∀ a ∈ c.toList, a.shortName ≠ stringToLower name) ∧
    (∀ a, CITypeAttributeList.Get c name = some a →
      a.shortName = stringToLower name ∧
      ∃ pre post, c.toList = pre ++ a :: post ∧
        ∀ b ∈ pre, b.shortName ≠ stringToLower name) ∧
    (∀ other, stringToLower name = stringToLower other →
      CITypeAttributeList.Get c name = CITypeAttributeList.Get c other) := by
  refine ⟨getAux_none_iff _ c, fun a h => getAux_first _ c a h, fun o ho => ?_⟩
  unfold CITypeAttributeList.Get
  rw [ho]

/-- Witness for C9: looking up "A" finds the attribute stored under short
name "a". -/
theorem C9_witness :
    (CITypeAttribute.mk "A" "a" "string" "" .nil).shortName = stringToLower "A" ∧
    ∃ pre post,
      (CITypeAttributeList.cons (.mk "A" "a" "string" "" .nil) .nil).toList
        = pre ++ (CITypeAttribute.mk "A" "a" "string" "" .nil) :: post ∧
      ∀ b ∈ pre, b.shortName ≠ stringToLower "A" :=
  (C9_Get_correct (.cons (.mk "A" "a" "string" "" .nil) .nil) "A").2.1
    (.mk "A" "a" "string" "" .nil) rfl

/-- C10: for every non-empty password and 32-byte salt, checking the
password against its own salted hash succeeds — the salt is recovered from
byte 32 onward of the decoded hash and the recomputed hash matches — and
`CheckPassword` returns `false` whenever the password or the stored hash is
empty.  The SHA-256 digest is any function producing 32 output bytes. -/
theorem C10_CheckPassword (sha : List Nat → List Nat) (p s : List Nat)
    (hp : p ≠ []) (hs : s.length = 32) (hsb : ∀ b ∈ s, b < 256)
    (hd : (sha (s ++ p)).length = 32) (hdb : ∀ b ∈ sha (s ++ p), b < 256) :
    CheckPassword sha (HashPasswordWithSalt sha p s) p = some true ∧
    (∀ h : String, ∀ q : List Nat, q = [] ∨ h = "" →
      CheckPassword sha h q = some false) := by
  constructor
  · have hnenil : sha (s ++ p) ++ s ≠ [] := by
      intro hx
      have := congrArg List.length hx
      simp [List.length_append, hd, hs] at this
    have hne : HashPasswordWithSalt sha p s ≠ "" := by
      intro hcon
      have hdat : encodeB64 (sha (s ++ p) ++ s) = [] := by
        have := congrArg String.data hcon
        simpa [HashPasswordWithSalt] using this
      exact encodeB64_ne_nil hnenil hdat
    have hbytes : ∀ b ∈ sha (s ++ p) ++ s, b < 256 := by
      intro b hb
      rcases List.mem_append.mp hb with h1 | h2
      · exact hdb b h1
      · exact hsb b h2
    unfold CheckPassword
    rw [if_neg (by rintro (hx | hx); exacts [hp hx, hne hx])]
    have hdata : (HashPasswordWithSalt sha p s).data = encodeB64 (sha (s ++ p) ++ s) := rfl
    rw [hdata, decodeB64_encodeB64 _ hbytes]
    show some (HashPasswordWithSalt sha p s ==
      HashPasswordWithSalt sha p ((sha (s ++ p) ++ s).drop 32)) = some true
    have hdrop : (sha (s ++ p) ++ s).drop 32 = s := by
      rw [← hd]
      exact List.drop_left _ _
    rw [hdrop]
    simp
  · intro h q hor
    unfold CheckPassword
    rw [if_pos hor]

/-- Witness for C10 with a constant 32-byte digest function, the one-byte
password [97] and the salt of thirty-two 1-bytes. -/
theorem C10_witness :
    ([97] : List Nat) ≠ [] ∧
    (List.replicate 32 1 : List Nat).length = 32 ∧
    CheckPassword shaConst (HashPasswordWithSalt shaConst [97] (List.replicate 32 1)) [97]
      = some true ∧
    CheckPassword shaConst "" [] = some false :=
  ⟨by decide, by decide,
   (C10_CheckPassword shaConst [97] (List.replicate 32 1) (by decide) (by decide)
      (by decide) (by decide) (by decide)).1,
   (C10_CheckPassword shaConst [97] (List.replicate 32 1) (by decide) (by decide)
      (by decide) (by decide) (by decide)).2 "" [] (Or.inl rfl)⟩
